import Mathlib

/-!
Formal model of the kexlinux userspace bootloader (src/lib/blockdev.rs,
src/lib/kexlinux.rs, src/bin/kexlinux.rs), as a shallow embedding.

External effects (file reads, the blkid / mount / umount / kexec utilities,
the OS mount table) are passed in explicitly as oracle arguments, so every
function here is a pure translation of the corresponding Rust function:
the oracle supplies exactly the data the Rust code would have read, and the
result records both the Rust return value and which external commands were
invoked.  Errors are `Except Unit` mirroring the unit-like `BlockDevError`
and `KexLinuxError` structs.
-/

namespace Kexlinux

/-! ### String utilities (blockdev.rs: trim_spaces_and_newline, str::splitn) -/

/-- Characters trimmed by `trim_spaces_and_newline` in blockdev.rs. -/
def isTrimChar (c : Char) : Bool :=
  c = ' ' || c = '\t' || c = '\r' || c = '\n'

/-- blockdev.rs `trim_spaces_and_newline`: trim the characters of " \t\r\n"
from both ends of the string. -/
def trim_spaces_and_newline (s : String) : String :=
  ⟨((s.data.dropWhile isTrimChar).reverse.dropWhile isTrimChar).reverse⟩

/-- Rust `str::splitn(2, sep)` on a character list: `some (before, after)`
splitting at the first occurrence of `sep`, or `none` when `sep` is absent
(in which case the Rust iterator yields the whole string once). -/
def splitOnceAux (sep : Char) : List Char → Option (List Char × List Char)
  | [] => none
  | c :: cs =>
    if c = sep then some ([], cs)
    else (splitOnceAux sep cs).map fun p => (c :: p.1, p.2)

/-- `splitOnceAux` lifted to `String`. -/
def splitOnce (sep : Char) (s : String) : Option (String × String) :=
  (splitOnceAux sep s.data).map fun p => (⟨p.1⟩, ⟨p.2⟩)

/-- Rust `str::split('\n')`: every line of the character list, where each
`'\n'` terminates a line; the result is always non-empty. -/
def splitLines : List Char → List (List Char)
  | [] => [[]]
  | c :: cs =>
    if c = '\n' then [] :: splitLines cs
    else
      match splitLines cs with
      | l :: ls => (c :: l) :: ls
      | [] => [[c]]

/-! ### Block device model (blockdev.rs: BlockDev) -/

/-- blockdev.rs `BlockDev`.  `dev_major`/`dev_minor` are the Rust `u8`
fields, carried as `Nat`; every constructor below keeps them below 256. -/
structure BlockDev where
  path : String
  name : String
  dev_major : Nat
  dev_minor : Nat
  has_holders : Bool
  partitions : List BlockDev

/-- blockdev.rs `BlockDev::parse_u8` on `Option<&str>`: the Rust
`str::parse::<u8>` function accepts an optional leading '+' followed by one or more
decimal digits whose value fits in 8 bits. -/
def parse_u8 (s : Option String) : Except Unit Nat :=
  match s with
  | none => .error ()
  | some s =>
    let cs := match s.data with
      | '+' :: rest => rest
      | cs => cs
    if cs.isEmpty then .error ()
    else if cs.all Char.isDigit then
      let v := cs.foldl (fun n c => n * 10 + (c.toNat - 48)) 0
      if v ≤ 255 then .ok v else .error ()
    else .error ()

/-- blockdev.rs `BlockDev::get_major_minor`, applied to the contents of the
sysfs `dev` file: trim, split at the first ':' (`splitn(2, ":")`), parse
both components as `u8`. -/
def get_major_minor (content : String) : Except Unit (Nat × Nat) :=
  let t := trim_spaces_and_newline content
  match splitOnce ':' t with
  | some (a, b) =>
    match parse_u8 (some a) with
    | .error e => .error e
    | .ok major =>
      match parse_u8 (some b) with
      | .error e => .error e
      | .ok minor => .ok (major, minor)
  | none =>
    match parse_u8 (some t) with
    | .error e => .error e
    | .ok major =>
      match parse_u8 none with
      | .error e => .error e
      | .ok minor => .ok (major, minor)

/-- blockdev.rs `BlockDev::from_dev_path`, major extraction:
`((rdev & 0xFF00u64) >> 8) as u8`. -/
def rdev_major (rdev : Nat) : Nat :=
  (rdev &&& 0xFF00) >>> 8

/-- blockdev.rs `BlockDev::from_dev_path`, minor extraction:
`(rdev & 0x00FFu64) as u8`. -/
def rdev_minor (rdev : Nat) : Nat :=
  rdev &&& 0x00FF

/-! ### Device enumerator (blockdev.rs: BlockDevs)

The outcome of a catalog entry (reading the directory entry and then
`BlockDev::from_sys_path` on it) is `Except Unit BlockDev`; the oracle
passed to `BlockDevs.new` is the outcome of `read_dir` on /sys/class/block:
either the list of per-entry outcomes, or an error when the catalog itself
is unreadable. -/

/-- blockdev.rs `BlockDevs::new`: `try!` on the catalog `read_dir` result,
so an unreadable catalog is a hard construction error. -/
def BlockDevs.new (read_dir : Except Unit (List (Except Unit BlockDev))) :
    Except Unit (List (Except Unit BlockDev)) :=
  match read_dir with
  | .ok entries => .ok entries
  | .error e => .error e

/-- blockdev.rs `<BlockDevs as Iterator>::next`, run to exhaustion: the
`loop` retries `next_dev` on a per-entry error, so an erroring entry is
skipped and enumeration continues with the next entry. -/
def BlockDevs.collect : List (Except Unit BlockDev) → List BlockDev
  | [] => []
  | .ok dev :: rest => dev :: BlockDevs.collect rest
  | .error _ :: rest => BlockDevs.collect rest

/-- blockdev.rs `BlockDev::from_dev_path`: read `rdev` from the
metadata of the node (oracle), decompose into major/minor, then linearly scan the
catalog for a matching record. -/
def BlockDev.from_dev_path (rdev : Except Unit Nat)
    (read_dir : Except Unit (List (Except Unit BlockDev))) :
    Except Unit BlockDev :=
  match rdev with
  | .error e => .error e
  | .ok rdev =>
    match BlockDevs.new read_dir with
    | .error e => .error e
    | .ok entries =>
      match (BlockDevs.collect entries).find?
          (fun d => d.dev_major == rdev_major rdev &&
                    d.dev_minor == rdev_minor rdev) with
      | some d => .ok d
      | none => .error ()

/-! ### Filesystem prober (blockdev.rs: FS) -/

/-- Outcome of one blkid invocation, as seen by `FS::get_fs_type`: a
successful exit with captured stdout, or a non-zero exit / signal. -/
inductive ProbeResult where
  | success (stdout : String)
  | failure
deriving Repr

/-- The accumulator `BlkIDInfo` of blockdev.rs `FS::parse_blkid_output`. -/
structure BlkIDInfo where
  usage : Option String
  fs_type : Option String
deriving Repr

/-- blockdev.rs `BlkIDInfo::build`: split one line at the first '=';
a line with no '=' (no value) is ignored, a `USAGE`/`TYPE` key overwrites
the accumulator field, any other key is ignored. -/
def BlkIDInfo.build (self : BlkIDInfo) (kv : List Char) : BlkIDInfo :=
  match splitOnceAux '=' kv with
  | some (key, value) =>
    if (⟨key⟩ : String) = "USAGE" then { self with usage := some ⟨value⟩ }
    else if (⟨key⟩ : String) = "TYPE" then { self with fs_type := some ⟨value⟩ }
    else self
  | none => self

/-- blockdev.rs `FS::parse_blkid_output`: trim the output, fold
`BlkIDInfo::build` over its lines, then require a usage of exactly
"filesystem" and a present filesystem type. -/
def FS.parse_blkid_output (out : String) : Except Unit String :=
  let info := (splitLines (trim_spaces_and_newline out).data).foldl
    BlkIDInfo.build ⟨none, none⟩
  match info.usage with
  | none => .error ()
  | some u =>
    if u ≠ "filesystem" then .error ()
    else
      match info.fs_type with
      | some t => .ok t
      | none => .error ()

/-- blockdev.rs `FS::get_fs_type`, with the outcome of the blkid invocation as
an oracle: on success parse stdout, on failure return an error. -/
def FS.get_fs_type (blkid : ProbeResult) : Except Unit String :=
  match blkid with
  | .success out => FS.parse_blkid_output out
  | .failure => .error ()

/-- blockdev.rs `FS`. -/
structure FS where
  dev : BlockDev
  fs_type : String

/-- blockdev.rs `FS::from_dev`, instrumented: `probe dev` is the blkid
outcome for `dev`; the second component records whether blkid was invoked.
Devices with holders or partitions are rejected before any probe. -/
def FS.from_dev (probe : BlockDev → ProbeResult) (dev : BlockDev) :
    Except Unit FS × Bool :=
  if dev.has_holders then (.error (), false)
  else if !dev.partitions.isEmpty then (.error (), false)
  else
    match FS.get_fs_type (probe dev) with
    | .ok t => (.ok ⟨dev, t⟩, true)
    | .error e => (.error e, true)

/-- blockdev.rs `get_filesystems`: keep exactly the devices that probe
successfully, in input order. -/
def get_filesystems (probe : BlockDev → ProbeResult)
    (block_devs : List BlockDev) : List FS :=
  block_devs.filterMap fun dev => (FS.from_dev probe dev).1.toOption

/-! ### Mount manager (blockdev.rs: Mount)

`Mount.mount` takes as oracles the OS mount-table lookup result
(`mnt::get_mount`), the temporary-directory creation outcome, the
`create_dir` outcome and the exit status of the mount utility; `Mount.umount`
takes the exit status of the umount utility.  Each returns, along with the Rust
result, whether the external (un)mount utility was invoked. -/

/-- One entry of the OS mount table (`mnt::MountEntry`); `file` is its
mount path. -/
structure ExistingMount where
  file : String

/-- Result of `mnt::get_mount` on a device path. -/
inductive GetMountResult where
  | found (m : ExistingMount)
  | notFound
  | err

/-- blockdev.rs `Mount`: the owned temporary directory (its path), if this
`Mount` created one, and the mount path. -/
structure Mount where
  temp_dir : Option String
  mount_path : String

/-- blockdev.rs `Mount::path`. -/
def Mount.path (m : Mount) : String :=
  m.mount_path

/-- Result of `Mount::mount`, plus whether the mount utility ran. -/
structure MountOutcome where
  result : Except Unit Mount
  mountInvoked : Bool

/-- blockdev.rs `Mount::mount`: if the OS mount table already has the
device, reuse that mount (no owned temporary directory, no mount command);
otherwise create a temporary directory and a mount-point inside it and
invoke the mount utility. -/
def Mount.mount (getMount : GetMountResult) (tempDir : Except Unit String)
    (createDirOk : Bool) (mountCmdOk : Bool) (fs : FS) : MountOutcome :=
  match getMount with
  | .found existing => ⟨.ok ⟨none, existing.file⟩, false⟩
  | .notFound | .err =>
    match tempDir with
    | .error _ => ⟨.error (), false⟩
    | .ok td =>
      let mount_path := td ++ "/mount"
      if !createDirOk then ⟨.error (), false⟩
      else if mountCmdOk then ⟨.ok ⟨some td, mount_path⟩, true⟩
      else ⟨.error (), true⟩

/-- Result of `Mount::umount`, the state of the `Mount` afterwards, and whether
the umount utility ran. -/
structure UmountOutcome where
  result : Except Unit Unit
  mount : Mount
  invoked : Bool

/-- blockdev.rs `Mount::umount`: a no-op when no temporary directory is
owned; otherwise give up ownership of the temporary directory (before the
command runs, via `mem::replace`) and invoke the umount utility — on
failure the directory is abandoned in place, and the error is returned. -/
def Mount.umount (umountCmdOk : Bool) (m : Mount) : UmountOutcome :=
  match m.temp_dir with
  | some _ =>
    if umountCmdOk then ⟨.ok (), { m with temp_dir := none }, true⟩
    else ⟨.error (), { m with temp_dir := none }, true⟩
  | none => ⟨.ok (), m, false⟩

/-! ### Configuration model (the syslinux_conf collaborator)

kexlinux.rs consumes the external `syslinux_conf` crate only through the
shape described in the spec: global settings (timeouts, default /
on-timeout / on-error label name references, a label-defaults entry) and an
ordered label mapping, each label carrying a boot-target kind, kernel file
reference, optional initrd reference, optional append string and a
defaults-merge source. -/

/-- Modelled from the spec: `syslinux_conf::KernelFile` — a kernel file
reference is either a concrete Linux kernel file or some other,
unsupported, kernel-file kind. -/
inductive KernelFile where
  | linux (path : String)
  | other (kind : String) (path : String)
deriving DecidableEq, Repr

/-- Modelled from the spec: the kernel part of a `syslinux_conf::Label` —
kernel file reference, optional initrd reference, optional append
string. -/
structure Kernel where
  kernel_file : Option KernelFile
  initrd : Option String
  append : Option String
deriving DecidableEq, Repr

/-- Modelled from the spec: `syslinux_conf::KernelOrConfig`, the
boot-target kind of a label (only the kernel kind exists, and it is the
only one this program matches on). -/
inductive KernelOrConfig where
  | kernel (k : Kernel)
deriving DecidableEq, Repr

/-- Modelled from the spec: `syslinux_conf::Label`. -/
structure Label where
  kernel_or_config : KernelOrConfig
deriving DecidableEq, Repr

/-- Modelled from the spec: `syslinux_conf::Labels`, an ordered mapping
from label name to label definition, order = file order. -/
abbrev Labels := List (String × Label)

/-- Modelled from the spec: lookup by label name in the ordered mapping
(`LinkedHashMap::get`). -/
def Labels.get (labels : Labels) (name : String) : Option Label :=
  ((labels : List (String × Label)).find? fun p => p.1 == name).map fun p => p.2

/-- Modelled from the spec: the first entry of the ordered mapping in file
order (`LinkedHashMap::front`). -/
def Labels.front (labels : Labels) : Option (String × Label) :=
  (labels : List (String × Label)).head?

/-- Modelled from the spec: `syslinux_conf::ApplyDefaults` for labels —
for every label, fill its unset boot-target fields from the label-defaults
entry. -/
def Label.apply_defaults (label : Label) (defaults : Label) : Label :=
  match label.kernel_or_config, defaults.kernel_or_config with
  | .kernel k, .kernel d =>
    ⟨.kernel ⟨k.kernel_file.or d.kernel_file,
              k.initrd.or d.initrd,
              k.append.or d.append⟩⟩

/-- Modelled from the spec: the global section of
`syslinux_conf::SyslinuxConf` (timeout values are carried opaquely). -/
structure GlobalConf where
  timeout : Option Rat
  total_timeout : Option Rat
  default : Option String
  ontimeout : Option String
  onerror : Option String
  label_defaults : Label

/-- Modelled from the spec: `syslinux_conf::SyslinuxConf`, the parsed
configuration tree handed to `SyslinuxConf::from_conf`. -/
structure ParsedConf where
  global : GlobalConf
  labels : Labels

/-! ### Configuration resolver (kexlinux.rs: SyslinuxConf) -/

/-- kexlinux.rs `SyslinuxConf` (the resolved configuration). -/
structure SyslinuxConf where
  timeout : Option Rat
  total_timeout : Option Rat
  ontimeout : Label
  onerror : Option Label
  default_name : Option String
  labels : Labels

/-- kexlinux.rs `SyslinuxConf::fix_append`: after the defaults merge, an
append value equal to the sentinel "-" is converted to absent; any other
value is kept. -/
def SyslinuxConf.fix_append (label : Label) : Label :=
  match label.kernel_or_config with
  | .kernel k =>
    ⟨.kernel { k with
        append := k.append.bind fun v => if v = "-" then none else some v }⟩

/-- The filter predicate of kexlinux.rs `SyslinuxConf::filter_map_labels`:
a label survives exactly when its boot target is a kernel entry whose
kernel file is a concrete Linux kernel file. -/
def Label.supported (label : Label) : Bool :=
  match label.kernel_or_config with
  | .kernel k =>
    match k.kernel_file with
    | some (.linux _) => true
    | some (.other _ _) => false
    | none => false

/-- kexlinux.rs `SyslinuxConf::filter_map_labels`: merge defaults into
every label, normalize its append, then keep only supported labels (a
warning, not an error, for the dropped ones). -/
def SyslinuxConf.filter_map_labels (label_defaults : Label)
    (labels : Labels) : Labels :=
  ((labels : List (String × Label)).map
      (fun p => (p.1, SyslinuxConf.fix_append (p.2.apply_defaults label_defaults)))).filter
    fun p => p.2.supported

/-- kexlinux.rs `SyslinuxConf::from_conf`: filter the labels, resolve the
default name among survivors (dropped silently when absent), and resolve
the required on-timeout label by the fallback chain: configured on-timeout
name, else resolved default, else first surviving label; error when the
chain is empty. -/
def SyslinuxConf.from_conf (conf : ParsedConf) : Except Unit SyslinuxConf :=
  let labels := SyslinuxConf.filter_map_labels conf.global.label_defaults conf.labels
  let default := conf.global.default.bind fun default_name => labels.get default_name
  let ontimeout := conf.global.ontimeout.bind fun ontimeout_name => labels.get ontimeout_name
  let default_name := match default with
    | some _ => conf.global.default
    | none => none
  match ontimeout.or (default.or ((labels.front).map fun p => p.2)) with
  | some resolved => .ok
      { timeout := conf.global.timeout
        total_timeout := conf.global.total_timeout
        ontimeout := resolved
        onerror := conf.global.onerror.bind fun onerror_name => labels.get onerror_name
        default_name := default_name
        labels := labels }
  | none => .error ()

/-! ### Kernel loading (kexlinux.rs: KexLinux::load_kernel) -/

/-- kexlinux.rs `KexLinux::load_kernel`, up to the kexec invocation: the
argument list handed to the kexec load stage (`--load` with the kernel
path, then `--initrd` when an initrd is present, then `--append` when an
append string is present), or an error for an unsupported or missing
kernel file. -/
def KexLinux.load_kernel_args (label : Label) : Except Unit (List String) :=
  match label.kernel_or_config with
  | .kernel kernel =>
    match kernel.kernel_file with
    | some (.linux kernel_file) =>
      .ok (["--load", kernel_file]
        ++ (match kernel.initrd with
            | some initrd => ["--initrd", initrd]
            | none => [])
        ++ (match kernel.append with
            | some append => ["--append", append]
            | none => []))
    | some (.other _ _) => .error ()
    | none => .error ()

/-! ### Device auto-detection order (kexlinux.rs: KexLinux::from_device_list)

`filesystems.sort_by(|a, b| natord::compare(&a.dev.name, &b.dev.name))`
sorts the probed filesystems by natural ordering of the device name with a
stable sort. -/

/-- Digit run value: decimal digits to their numeric value. -/
def digitsToNat (cs : List Char) : Nat :=
  cs.foldl (fun n c => n * 10 + (c.toNat - 48)) 0

/-- Modelled from the spec: the natural ordering of the external natord crate —
string comparison that treats embedded numeric runs by numeric value rather
than character-by-character.  `fuel` bounds the recursion and is always at
least the input length when called through `natord_compare`. -/
def natCompareFuel : Nat → List Char → List Char → Ordering
  | 0, _, _ => .eq
  | _ + 1, [], [] => .eq
  | _ + 1, [], _ :: _ => .lt
  | _ + 1, _ :: _, [] => .gt
  | fuel + 1, a :: l0, b :: r0 =>
    if a.isDigit && b.isDigit then
      let dl := (a :: l0).takeWhile Char.isDigit
      let l1 := (a :: l0).dropWhile Char.isDigit
      let dr := (b :: r0).takeWhile Char.isDigit
      let r1 := (b :: r0).dropWhile Char.isDigit
      match compare (digitsToNat dl) (digitsToNat dr) with
      | .eq => natCompareFuel fuel l1 r1
      | ord => ord
    else
      match compare a b with
      | .eq => natCompareFuel fuel l0 r0
      | ord => ord

/-- Modelled from the spec: `natord::compare` on device names. -/
def natord_compare (a b : String) : Ordering :=
  natCompareFuel (a.data.length + b.data.length + 1) a.data b.data

/-- Stable insertion of `x` in front of the first element it does not
compare less-or-equal to. -/
def insertBy (le : α → α → Bool) (x : α) : List α → List α
  | [] => [x]
  | y :: ys => if le x y then x :: y :: ys else y :: insertBy le x ys

/-- Rust `Vec::sort_by` (a stable ascending sort by the comparator),
modelled as a stable insertion sort. -/
def sortBy (le : α → α → Bool) : List α → List α
  | [] => []
  | x :: xs => insertBy le x (sortBy le xs)

/-- The sorted mount-candidate list of kexlinux.rs
`KexLinux::from_device_list`: probed filesystems ordered by natural
ordering of their device name. -/
def mountCandidates (filesystems : List FS) : List FS :=
  sortBy (fun a b => natord_compare a.dev.name b.dev.name ≠ .gt) filesystems

/-- The per-candidate loop of kexlinux.rs `KexLinux::from_device_list`:
try each filesystem in order; a mount failure or a configuration-resolution
failure skips to the next candidate; error when the list is exhausted.
`mountO fs` is the outcome of `Mount::mount` for `fs`, and `resolveO p`
the outcome of `KexLinux::from_local` at mount path `p`. -/
def tryBoot (mountO : FS → MountOutcome)
    (resolveO : String → Except Unit SyslinuxConf) :
    List FS → Except Unit SyslinuxConf
  | [] => .error ()
  | fs :: rest =>
    match (mountO fs).result with
    | .ok m =>
      match resolveO m.mount_path with
      | .ok conf => .ok conf
      | .error _ => tryBoot mountO resolveO rest
    | .error _ => tryBoot mountO resolveO rest

/-- kexlinux.rs `KexLinux::from_device_list`: probe the devices, sort the
resulting filesystems naturally by device name, and try them in order. -/
def KexLinux.from_device_list (probe : BlockDev → ProbeResult)
    (mountO : FS → MountOutcome)
    (resolveO : String → Except Unit SyslinuxConf)
    (devs : List BlockDev) : Except Unit SyslinuxConf :=
  tryBoot mountO resolveO (mountCandidates (get_filesystems probe devs))

/-- The order in which `KexLinux::from_device_list` tries devices, by
device name. -/
def trialOrder (probe : BlockDev → ProbeResult) (devs : List BlockDev) :
    List String :=
  (mountCandidates (get_filesystems probe devs)).map fun fs => fs.dev.name

/-! ### Concrete fixtures used by witnesses and concrete claims -/

/-- A leaf device (no holders, no partitions) with the given name. -/
def mkLeafDev (name : String) : BlockDev :=
  ⟨"/dev/" ++ name, name, 8, 0, false, []⟩

/-- A device with an active holder. -/
def devWithHolders : BlockDev :=
  ⟨"/dev/sda", "sda", 8, 0, true, []⟩

/-- A probe oracle on which blkid always fails. -/
def probeNone : BlockDev → ProbeResult := fun _ => .failure

/-- A probe oracle on which blkid always reports an ext4 filesystem. -/
def probeExt4 : BlockDev → ProbeResult :=
  fun _ => .success "USAGE=filesystem\nTYPE=ext4\n"

/-! ### Shared helper lemmas -/

/-- A parsed `u8` fits in 8 bits. -/
theorem parse_u8_le (s : Option String) (v : Nat)
    (h : parse_u8 s = .ok v) : v ≤ 255 := by
  cases s with
  | none => simp [parse_u8] at h
  | some s =>
    simp only [parse_u8] at h
    split at h
    · exact absurd h (by simp)
    · split at h
      · split at h
        · simp only [Except.ok.injEq] at h
          omega
        · exact absurd h (by simp)
      · exact absurd h (by simp)

/-! ### Claim theorems -/

/-- C2: a device with holders or partitions is rejected by `FS::from_dev`
before blkid is ever invoked; consequently every successfully constructed
`FS` owns a device with no holders and no partitions, and such ineligible
devices never appear among the mount candidates produced by
`get_filesystems`. -/
theorem from_dev_probe_eligibility :
    (∀ (probe : BlockDev → ProbeResult) (dev : BlockDev),
        dev.has_holders = true ∨ dev.partitions ≠ [] →
        FS.from_dev probe dev = (.error (), false)) ∧
    (∀ (probe : BlockDev → ProbeResult) (dev : BlockDev) (fs : FS),
        (FS.from_dev probe dev).1 = .ok fs →
        fs.dev.has_holders = false ∧ fs.dev.partitions = []) ∧
    (∀ (probe : BlockDev → ProbeResult) (devs : List BlockDev) (fs : FS),
        fs ∈ get_filesystems probe devs →
        fs.dev.has_holders = false ∧ fs.dev.partitions = []) := by
  have key : ∀ (probe : BlockDev → ProbeResult) (dev : BlockDev) (fs : FS),
      (FS.from_dev probe dev).1 = .ok fs →
      fs.dev.has_holders = false ∧ fs.dev.partitions = [] := by
    intro probe dev fs h
    simp only [FS.from_dev] at h
    split at h
    · simp at h
    · split at h
      · simp at h
      · rename_i hhold hpart
        split at h
        · rename_i t ht
          simp only [Except.ok.injEq] at h
          subst h
          refine ⟨by simpa using hhold, by simpa using hpart⟩
        · simp at h
  refine ⟨?_, key, ?_⟩
  · intro probe dev h
    rcases h with h | h
    · simp [FS.from_dev, h]
    · cases hhold : dev.has_holders with
      | true => simp [FS.from_dev, hhold]
      | false => simp [FS.from_dev, hhold, h]
  · intro probe devs fs hmem
    simp only [get_filesystems, List.mem_filterMap] at hmem
    obtain ⟨dev, _, hok⟩ := hmem
    apply key probe dev fs
    cases hres : (FS.from_dev probe dev).1 with
    | ok fs2 =>
      rw [hres] at hok
      simp only [Except.toOption, Option.some.injEq] at hok
      rw [hok]
    | error e => rw [hres] at hok; simp [Except.toOption] at hok

/-- C2 witness: a concrete device with a holder is rejected with no blkid
invocation. -/
theorem from_dev_probe_eligibility_witness :
    FS.from_dev probeNone devWithHolders = (.error (), false) :=
  from_dev_probe_eligibility.1 probeNone devWithHolders (Or.inl rfl)

/-- C3: `Mount::umount` is idempotent — whatever a first release did
(success, failure, or no-op), a second release on the resulting `Mount`
returns success and does not invoke the umount utility. -/
theorem umount_idempotent (m : Mount) (ok1 ok2 : Bool) :
    Mount.umount ok2 (Mount.umount ok1 m).mount =
      ⟨.ok (), (Mount.umount ok1 m).mount, false⟩ := by
  cases m with
  | mk td mp => cases td <;> cases ok1 <;> simp [Mount.umount]

/-- C4: when the OS mount table already contains the device,
`Mount::mount` reuses the existing mount: it never invokes the mount
utility, owns no temporary directory, exposes the path of the existing mount,
and its release is a no-op that never invokes the umount utility. -/
theorem mount_reuse (em : ExistingMount) (tempDir : Except Unit String)
    (createDirOk mountCmdOk umountCmdOk : Bool) (fs : FS) :
    Mount.mount (.found em) tempDir createDirOk mountCmdOk fs =
      ⟨.ok ⟨none, em.file⟩, false⟩ ∧
    Mount.path ⟨none, em.file⟩ = em.file ∧
    Mount.umount umountCmdOk ⟨none, em.file⟩ =
      ⟨.ok (), ⟨none, em.file⟩, false⟩ :=
  ⟨rfl, rfl, rfl⟩

/-- C5: `SyslinuxConf::fix_append` turns an append equal to the sentinel
"-" into an absent append and keeps every other append value unchanged,
and a label whose append was "-" produces exactly the same kexec load
arguments as one whose append was never set. -/
theorem fix_append_normalization :
    (∀ (kf : Option KernelFile) (initrd append : Option String),
        SyslinuxConf.fix_append ⟨.kernel ⟨kf, initrd, append⟩⟩ =
          ⟨.kernel ⟨kf, initrd, if append = some "-" then none else append⟩⟩) ∧
    (∀ (kf : Option KernelFile) (initrd : Option String),
        KexLinux.load_kernel_args
            (SyslinuxConf.fix_append ⟨.kernel ⟨kf, initrd, some "-"⟩⟩) =
          KexLinux.load_kernel_args ⟨.kernel ⟨kf, initrd, none⟩⟩) := by
  constructor
  · intro kf initrd append
    cases append with
    | none => simp [SyslinuxConf.fix_append]
    | some v => by_cases h : v = "-" <;> simp [SyslinuxConf.fix_append, h]
  · intro kf initrd
    simp [SyslinuxConf.fix_append, KexLinux.load_kernel_args]

/-- C9: every successfully parsed major/minor pair fits in 8 bits;
parsing fails exactly when either colon-separated decimal component fails
to parse as a `u8` (and always when there is no ':'), and the device-node
path decomposes `rdev` by taking bits 8–15 as the major and bits 0–7 as
the minor, discarding all higher bits. -/
theorem major_minor_eight_bit :
    (∀ (content : String) (M m : Nat),
        get_major_minor content = .ok (M, m) → M ≤ 255 ∧ m ≤ 255) ∧
    (∀ content : String,
        match splitOnce ':' (trim_spaces_and_newline content) with
        | some (a, b) =>
            (get_major_minor content).isOk =
              ((parse_u8 (some a)).isOk && (parse_u8 (some b)).isOk)
        | none => (get_major_minor content).isOk = false) ∧
    (∀ rdev : Nat,
        rdev_major rdev = rdev / 2 ^ 8 % 2 ^ 8 ∧
        rdev_minor rdev = rdev % 2 ^ 8) := by
  refine ⟨?_, ?_, ?_⟩
  · intro content M m h
    simp only [get_major_minor] at h
    split at h
    · rename_i a b heq
      cases hA : parse_u8 (some a) with
      | error e => rw [hA] at h; simp at h
      | ok vA =>
        cases hB : parse_u8 (some b) with
        | error e => rw [hA, hB] at h; simp at h
        | ok vB =>
          rw [hA, hB] at h
          simp only [Except.ok.injEq, Prod.mk.injEq] at h
          obtain ⟨h1, h2⟩ := h
          subst h1; subst h2
          exact ⟨parse_u8_le _ _ hA, parse_u8_le _ _ hB⟩
    · rename_i heq
      cases hA : parse_u8 (some (trim_spaces_and_newline content)) with
      | error e => rw [hA] at h; simp at h
      | ok vA => rw [hA] at h; simp [parse_u8] at h
  · intro content
    split
    · rename_i a b heq
      simp only [get_major_minor, heq]
      cases hA : parse_u8 (some a) with
      | error e => simp [Except.isOk, Except.toBool]
      | ok vA =>
        cases hB : parse_u8 (some b) with
        | error e => simp [Except.isOk, Except.toBool]
        | ok vB => simp [Except.isOk, Except.toBool]
    · rename_i heq
      simp only [get_major_minor, heq]
      cases hA : parse_u8 (some (trim_spaces_and_newline content)) with
      | error e => simp [Except.isOk, Except.toBool]
      | ok vA => simp [parse_u8, Except.isOk, Except.toBool]
  · intro rdev
    constructor
    · show (rdev &&& 0xFF00) >>> 8 = rdev / 2 ^ 8 % 2 ^ 8
      rw [← Nat.shiftRight_eq_div_pow]
      apply Nat.eq_of_testBit_eq
      intro i
      simp only [Nat.testBit_shiftRight, Nat.testBit_and,
        Nat.testBit_mod_two_pow]
      have hmask : Nat.testBit 0xFF00 (8 + i) = decide (i < 8) := by
        by_cases hi : i < 8
        · interval_cases i <;> decide
        · have h16 : (0xFF00 : Nat) < 2 ^ (8 + i) := by
            calc (0xFF00 : Nat) < 2 ^ 16 := by norm_num
            _ ≤ 2 ^ (8 + i) := Nat.pow_le_pow_right (by norm_num) (by omega)
          rw [Nat.testBit_lt_two_pow h16]
          simp [hi]
      rw [hmask, Bool.and_comm]
    · show rdev &&& 0x00FF = rdev % 2 ^ 8
      have : (0x00FF : Nat) = 2 ^ 8 - 1 := by norm_num
      rw [this, Nat.and_pow_two_sub_one_eq_mod]

/-- C9 witness: the sysfs content "8:1\n" parses to major 8, minor 1, both
within the 8-bit bound. -/
theorem major_minor_eight_bit_witness : (8 : Nat) ≤ 255 ∧ (1 : Nat) ≤ 255 :=
  major_minor_eight_bit.1 "8:1\n" 8 1 rfl

/-- C8: enumerator construction fails when the device catalog is
unreadable; once constructed, erroring entries are skipped and enumeration
yields exactly the successfully constructed devices in catalog order. -/
theorem enumerator_fault_tolerance :
    (BlockDevs.new (.error ())).isOk = false ∧
    (∀ entries : List (Except Unit BlockDev),
        BlockDevs.new (.ok entries) = .ok entries) ∧
    (∀ entries : List (Except Unit BlockDev),
        BlockDevs.collect entries = entries.filterMap Except.toOption) := by
  refine ⟨rfl, fun _ => rfl, ?_⟩
  intro entries
  induction entries with
  | nil => rfl
  | cons e rest ih =>
    cases e <;> simp [BlockDevs.collect, Except.toOption, ih]

/-- The value a single blkid output line assigns to the given key: the
part after the first '=' when the part before it equals the key, else
nothing (a line without '=' assigns no value). -/
def lineAssign (key : String) (l : List Char) : Option String :=
  match splitOnceAux '=' l with
  | some (k, v) => if (⟨k⟩ : String) = key then some ⟨v⟩ else none
  | none => none

/-- The value assigned to the key by the LAST line that assigns it: later
lines take precedence. -/
def lastAssigned (key : String) : List (List Char) → Option String
  | [] => none
  | l :: ls => (lastAssigned key ls).or (lineAssign key l)

/-- One `BlkIDInfo::build` step updates `usage` exactly when the line
assigns `USAGE`, overwriting the accumulator. -/
theorem build_usage (init : BlkIDInfo) (l : List Char) :
    (BlkIDInfo.build init l).usage = (lineAssign "USAGE" l).or init.usage := by
  simp only [BlkIDInfo.build, lineAssign]
  split
  · rename_i k v heq
    by_cases hU : (⟨k⟩ : String) = "USAGE"
    · simp [hU]
    · by_cases hT : (⟨k⟩ : String) = "TYPE" <;> simp [hU, hT]
  · simp

/-- One `BlkIDInfo::build` step updates `fs_type` exactly when the line
assigns `TYPE`, overwriting the accumulator. -/
theorem build_fs_type (init : BlkIDInfo) (l : List Char) :
    (BlkIDInfo.build init l).fs_type = (lineAssign "TYPE" l).or init.fs_type := by
  simp only [BlkIDInfo.build, lineAssign]
  split
  · rename_i k v heq
    by_cases hU : (⟨k⟩ : String) = "USAGE"
    · have hT : ¬ (⟨k⟩ : String) = "TYPE" := by rw [hU]; decide
      simp [hU, hT]
    · by_cases hT : (⟨k⟩ : String) = "TYPE" <;> simp [hU, hT]
  · simp

/-- Folding `BlkIDInfo::build` over the output lines computes, for each of
the two tags, the value of its last occurrence (falling back to the
initial value of the accumulator). -/
theorem foldl_build_spec (lines : List (List Char)) (init : BlkIDInfo) :
    (lines.foldl BlkIDInfo.build init).usage =
      (lastAssigned "USAGE" lines).or init.usage ∧
    (lines.foldl BlkIDInfo.build init).fs_type =
      (lastAssigned "TYPE" lines).or init.fs_type := by
  induction lines generalizing init with
  | nil => simp [lastAssigned]
  | cons l ls ih =>
    simp only [List.foldl_cons, lastAssigned]
    have h := ih (BlkIDInfo.build init l)
    rw [h.1, h.2, build_usage, build_fs_type, Option.or_assoc, Option.or_assoc]
    exact ⟨rfl, rfl⟩

/-- C10: `FS::parse_blkid_output` classifies by the LAST `USAGE` and the
LAST `TYPE` assignment in the output, and succeeds only when the last
usage is exactly "filesystem" AND some `TYPE` line is present — a
"filesystem" usage with no `TYPE` line is still an error. -/
theorem parse_blkid_needs_both_tags :
    (∀ out : String,
        FS.parse_blkid_output out =
          match lastAssigned "USAGE" (splitLines (trim_spaces_and_newline out).data),
                lastAssigned "TYPE" (splitLines (trim_spaces_and_newline out).data) with
          | some u, some t => if u = "filesystem" then .ok t else .error ()
          | some _, none => .error ()
          | none, _ => .error ()) ∧
    FS.parse_blkid_output "USAGE=filesystem\n" = .error () ∧
    FS.parse_blkid_output "USAGE=raid\nTYPE=ext2\nUSAGE=filesystem\nTYPE=ext4\n" =
      .ok "ext4" := by
  refine ⟨?_, rfl, rfl⟩
  intro out
  have h := foldl_build_spec
    (splitLines (trim_spaces_and_newline out).data) ⟨none, none⟩
  simp only [Option.or_none] at h
  simp only [FS.parse_blkid_output, h.1, h.2]
  cases hU : lastAssigned "USAGE" (splitLines (trim_spaces_and_newline out).data) with
  | none => rfl
  | some u =>
    cases hT : lastAssigned "TYPE" (splitLines (trim_spaces_and_newline out).data) with
    | none => by_cases hu : u = "filesystem" <;> simp [hu]
    | some t => by_cases hu : u = "filesystem" <;> simp [hu]

/-- A label with a concrete Linux kernel file. -/
def validLabel : Label := ⟨.kernel ⟨some (.linux "/vmlinuz"), none, none⟩⟩

/-- A label with no kernel file at all. -/
def invalidLabel : Label := ⟨.kernel ⟨none, none, none⟩⟩

/-- A label-defaults entry that sets nothing. -/
def emptyDefaults : Label := ⟨.kernel ⟨none, none, none⟩⟩

/-- A parsed configuration with one invalid and one valid label and no
configured default / on-timeout / on-error names. -/
def mixedConf : ParsedConf :=
  ⟨⟨none, none, none, none, none, emptyDefaults⟩,
   [("broken", invalidLabel), ("good", validLabel)]⟩

/-- C6: `filter_map_labels` keeps exactly the labels whose merged boot
target is a kernel entry with a concrete Linux kernel file, preserves the
relative file order of the survivors (its output is a sublist of the
order-preserving merge of the input), and never fails: a mapping with one
invalid and one valid label resolves successfully with only the valid
label retained. -/
theorem filter_map_labels_spec :
    (∀ (d : Label) (ls : Labels) (p : String × Label),
        p ∈ (SyslinuxConf.filter_map_labels d ls : List (String × Label)) ↔
          (∃ l0 : Label, (p.1, l0) ∈ (ls : List (String × Label)) ∧
            p.2 = SyslinuxConf.fix_append (l0.apply_defaults d) ∧
            p.2.supported = true)) ∧
    (∀ (d : Label) (ls : Labels),
        (SyslinuxConf.filter_map_labels d ls : List (String × Label)).Sublist
          ((ls : List (String × Label)).map fun q =>
            (q.1, SyslinuxConf.fix_append (q.2.apply_defaults d)))) ∧
    SyslinuxConf.from_conf mixedConf =
      .ok ⟨none, none, validLabel, none, none, [("good", validLabel)]⟩ := by
  refine ⟨?_, ?_, rfl⟩
  · intro d ls p
    constructor
    · intro hp
      simp only [SyslinuxConf.filter_map_labels, List.mem_filter,
        List.mem_map] at hp
      obtain ⟨⟨⟨n, l⟩, hq, hfq⟩, hsup⟩ := hp
      cases p with
      | mk pn pl =>
        simp only [Prod.mk.injEq] at hfq
        obtain ⟨h1, h2⟩ := hfq
        subst h1
        exact ⟨l, hq, h2.symm, hsup⟩
    · rintro ⟨l0, hmem, hfix, hsup⟩
      simp only [SyslinuxConf.filter_map_labels, List.mem_filter, List.mem_map]
      cases p with
      | mk pn pl =>
        refine ⟨⟨(pn, l0), hmem, ?_⟩, hsup⟩
        show (pn, SyslinuxConf.fix_append (l0.apply_defaults d)) = (pn, pl)
        exact Prod.ext rfl hfix.symm
  · intro d ls
    exact List.filter_sublist _

/-- C1: `SyslinuxConf::from_conf` succeeds exactly when at least one label
survives filtering, and the resolved on-timeout label is given by the
fallback chain: the label named by the configured on-timeout reference
among survivors, else the label named by the configured default reference
among survivors, else the first surviving label in file order. -/
theorem from_conf_ontimeout_resolution (conf : ParsedConf) :
    ((SyslinuxConf.from_conf conf).isOk =
      !(SyslinuxConf.filter_map_labels conf.global.label_defaults conf.labels :
          List (String × Label)).isEmpty) ∧
    ((SyslinuxConf.from_conf conf).toOption.map SyslinuxConf.ontimeout =
      ((conf.global.ontimeout.bind
          (SyslinuxConf.filter_map_labels conf.global.label_defaults conf.labels).get).or
        ((conf.global.default.bind
            (SyslinuxConf.filter_map_labels conf.global.label_defaults conf.labels).get).or
          ((SyslinuxConf.filter_map_labels conf.global.label_defaults conf.labels).front.map
            fun p => p.2)))) := by
  simp only [SyslinuxConf.from_conf]
  cases hsurv : (SyslinuxConf.filter_map_labels conf.global.label_defaults conf.labels :
      List (String × Label)) with
  | nil =>
    simp [hsurv, Labels.get, Labels.front, Except.isOk, Except.toBool,
      Except.toOption]
  | cons hd tl =>
    cases hot : conf.global.ontimeout.bind fun n => Labels.get (hd :: tl) n with
    | some l =>
      simp [hot, Labels.front, Except.isOk, Except.toBool, Except.toOption]
    | none =>
      cases hdf : conf.global.default.bind fun n => Labels.get (hd :: tl) n with
      | some l =>
        simp [hot, hdf, Labels.front, Except.isOk, Except.toBool, Except.toOption]
      | none =>
        simp [hot, hdf, Labels.front, Except.isOk, Except.toBool, Except.toOption]

/-- Plain lexicographic (character-by-character) order on character lists,
used only to contrast with the natural ordering. -/
def lexLt : List Char → List Char → Bool
  | [], [] => false
  | [], _ :: _ => true
  | _ :: _, [] => false
  | a :: l, b :: r => if a = b then lexLt l r else decide (a < b)

/-- C7: auto-detection tries mount candidates in natural (numeric-aware)
order of the device name: the name set {"sda", "sda2", "sda10"} is tried
in exactly the order ["sda", "sda2", "sda10"] whatever the probe order,
even though plain lexicographic ordering would put "sda10" before
"sda2". -/
theorem natural_trial_order :
    trialOrder probeExt4 [mkLeafDev "sda", mkLeafDev "sda10", mkLeafDev "sda2"] =
      ["sda", "sda2", "sda10"] ∧
    trialOrder probeExt4 [mkLeafDev "sda10", mkLeafDev "sda2", mkLeafDev "sda"] =
      ["sda", "sda2", "sda10"] ∧
    natord_compare "sda2" "sda10" = .lt ∧
    lexLt "sda10".data "sda2".data = true := by
  refine ⟨?_, ?_, ?_, ?_⟩ <;> decide

end Kexlinux
